import Mathlib

/-!
Verification of the SharePoint 2019 REST connector (`src/main.py`).

The development shallowly embeds the connector's pure logic:

* a `Record` is a finite association list from string field names to values;
* a page response body (`PageData`) carries the optional `value` collection
  and the three optional continuation-link fields that the Python code reads
  with `data.get("__next")`, `data.get("odata.nextLink")` and
  `data.get("@odata.nextLink")`;
* the HTTP layer is a function `String → HttpResponse α` from URLs to
  responses; `requests.Response.raise_for_status` raises `requests.HTTPError`
  exactly for 4xx/5xx statuses, which `makeRequest` mirrors;
* the `while url:` fetch loop of `SharePointConnector._fetch_items` becomes
  the fuel-indexed `fetchLoop`; `none` from `fetchLoop` means the fuel ran
  out before the loop finished, `some` is the Python function's outcome
  together with the number of HTTP requests issued.

Python truthiness of the url / link values (where both `None` and `""` are
falsy) is modelled by `strTruthy` on `Option String`; a JSON `null` value of
a link field and an absent link field are both `none`, exactly as both make
`data.get(k)` return `None`.
-/

set_option autoImplicit false

/-- One list entry as returned by the server: a mapping from field names to
values (`Dict[str, Any]` in the source), as an association list. -/
abbrev Item (V : Type) := List (String × V)

/-- The JSON body of one page response, with the `value` collection
(`none` when the `value` key is absent) and the three continuation-link
fields: `nextLegacy` is `__next`, `nextNometa` is `odata.nextLink`,
`nextAtOdata` is `@odata.nextLink`.  A field that is absent or JSON `null`
is `none` (both make Python's `dict.get` return `None`). -/
structure PageData (α : Type) where
  value : Option (List α)
  nextLegacy : Option String
  nextNometa : Option String
  nextAtOdata : Option String
deriving DecidableEq

/-- An HTTP response: status code and parsed JSON body. -/
structure HttpResponse (α : Type) where
  status : Nat
  body : PageData α
deriving DecidableEq

/-- The errors the connector raises: `ValueError` from `_validate_limit`
and `requests.HTTPError` (carrying the status code) from `_make_request`. -/
inductive PyError where
  | valueError (msg : String)
  | httpError (status : Nat)
deriving DecidableEq

/-- Python truthiness of a `str | None` value: `None` and `""` are falsy. -/
def strTruthy : Option String → Bool
  | none => false
  | some s => !decide (s = "")

/-- Python's `a or b` on `str | None` values: `a` if `a` is truthy, else `b`. -/
def pyOrStr (a b : Option String) : Option String :=
  if strTruthy a then a else b

/-- `SharePointConnector._get_next_url`: the chained Python `or` over
`data.get("__next")`, `data.get("odata.nextLink")`, `data.get("@odata.nextLink")`. -/
def getNextUrl {α : Type} (d : PageData α) : Option String :=
  pyOrStr d.nextLegacy (pyOrStr d.nextNometa d.nextAtOdata)

/-- `requests.Response.raise_for_status` raises for client and server error
statuses, i.e. 400 ≤ status < 600. -/
def isHttpErrorStatus (s : Nat) : Bool :=
  400 ≤ s && s < 600

/-- `SharePointConnector._make_request`: issue the GET, call
`raise_for_status` (an `HttpError` for a 4xx/5xx status), else return the
parsed JSON body. -/
def makeRequest {α : Type} (server : String → HttpResponse α) (url : String) :
    Except PyError (PageData α) :=
  let r := server url
  if isHttpErrorStatus r.status then .error (.httpError r.status) else .ok r.body

/-- The `while url:` loop body of `SharePointConnector._fetch_items`, with
explicit fuel.  State: the current url (`str | None`), the accumulated
`items`, and the number of requests issued so far.  `none` means the fuel was
exhausted while the loop would have continued; `some (outcome, count)` is the
Python outcome (normal return of the items, or the propagated exception)
together with the total number of HTTP requests issued. -/
def fetchLoop {α : Type} (server : String → HttpResponse α) (paginate : Bool) :
    Nat → Option String → List α → Nat → Option (Except PyError (List α) × Nat)
  | _, none, items, count => some (.ok items, count)
  | 0, some u, items, count =>
      if u = "" then some (.ok items, count) else none
  | fuel + 1, some u, items, count =>
      if u = "" then some (.ok items, count)
      else
        match makeRequest server u with
        | .error e => some (.error e, count + 1)
        | .ok d =>
            fetchLoop server paginate fuel
              (if paginate then getNextUrl d else none)
              (items ++ d.value.getD []) (count + 1)

/-- `SharePointConnector._fetch_items(url, paginate)`: run the loop from the
initial url with an empty accumulator.  (`data.get("value", [])` is
`d.value.getD []`.) -/
def fetchItems {α : Type} (server : String → HttpResponse α) (url : String)
    (paginate : Bool) (fuel : Nat) : Option (Except PyError (List α) × Nat) :=
  fetchLoop server paginate fuel (some url) [] 0

/-- Python's `str.startswith`: a character-level prefix test. -/
def pyStartsWith (s p : String) : Bool :=
  p.data.isPrefixOf s.data

/-- `SharePointConnector._clean_item`: keep exactly the pairs whose key does
not start with an underscore. -/
def cleanItem {V : Type} (item : Item V) : Item V :=
  item.filter (fun kv => ! pyStartsWith kv.1 "_")

/-- A pandas DataFrame, abstracted to its list of rows. -/
structure Frame (V : Type) where
  rows : List (Item V)
deriving DecidableEq

/-- `SharePointConnector._to_dataframe`: on an empty input, log a warning
and return an empty DataFrame; otherwise one row per cleaned record.  The
boolean records whether the warning was emitted. -/
def toDataframe {V : Type} (items : List (Item V)) : Frame V × Bool :=
  if items.isEmpty then (⟨[]⟩, true)
  else (⟨items.map cleanItem⟩, false)

/-- `SharePointConfig`: the frozen configuration dataclass. -/
structure SharePointConfig where
  siteUrl : String
  username : String
  password : String
  listTitle : String

/-- Bytes never percent-encoded by Python's `urllib.parse.quote` with its
default `safe='/'`: ASCII letters, digits, `_.-~` and the safe `/`. -/
def quoteSafe (b : Nat) : Bool :=
  (65 ≤ b && b ≤ 90) || (97 ≤ b && b ≤ 122) || (48 ≤ b && b ≤ 57) ||
    b == 95 || b == 46 || b == 45 || b == 126 || b == 47

/-- The uppercase hex digit character for `n < 16`, as in `quote`'s `%XX`. -/
def hexDigit (n : Nat) : Char :=
  if n < 10 then Char.ofNat (48 + n) else Char.ofNat (55 + n)

/-- `urllib.parse.quote` on the UTF-8 byte sequence of the input: safe bytes
pass through, every other byte becomes `%` followed by two uppercase hex
digits. -/
def quoteBytes (bs : List Nat) : List Char :=
  bs.flatMap fun b =>
    if quoteSafe b then [Char.ofNat b]
    else ['%', hexDigit (b / 16), hexDigit (b % 16)]

/-- The numeric value of one hex digit character (upper- or lowercase, as
`urllib.parse.unquote` accepts both), `none` for a non-hex character. -/
def hexVal (c : Char) : Option Nat :=
  if 48 ≤ c.toNat && c.toNat ≤ 57 then some (c.toNat - 48)
  else if 65 ≤ c.toNat && c.toNat ≤ 70 then some (c.toNat - 55)
  else if 97 ≤ c.toNat && c.toNat ≤ 102 then some (c.toNat - 87)
  else none

/-- Percent-decoding as in `urllib.parse.unquote`, producing the byte
sequence: `%XY` with two hex digits decodes to one byte; a `%` not followed
by two hex digits stays literal, and scanning resumes right after it. -/
def unquoteBytes : List Char → List Nat
  | [] => []
  | c :: rest =>
      if c = '%' then
        match rest with
        | c1 :: c2 :: rest2 =>
            match hexVal c1, hexVal c2 with
            | some h1, some h2 => (16 * h1 + h2) :: unquoteBytes rest2
            | _, _ => c.toNat :: unquoteBytes (c1 :: c2 :: rest2)
        | [c1] => c.toNat :: unquoteBytes [c1]
        | [] => [c.toNat]
      else c.toNat :: unquoteBytes rest

/-- The UTF-8 byte sequence of a string, as natural numbers. -/
def strBytes (s : String) : List Nat :=
  s.toUTF8.toList.map (fun b => b.toNat)

/-- `SharePointConnector._encoded_list_title`: `quote(self._config.list_title)`. -/
def encodedListTitle (cfg : SharePointConfig) : String :=
  String.mk (quoteBytes (strBytes cfg.listTitle))

/-- `SharePointConnector._base_api_url`. -/
def baseApiUrl (cfg : SharePointConfig) : String :=
  cfg.siteUrl ++ "/_api/web"

/-- `SharePointConnector._build_items_url`:
`{base}/lists/GetByTitle('{encoded}')/items`. -/
def buildItemsUrl (cfg : SharePointConfig) : String :=
  baseApiUrl cfg ++ "/lists/GetByTitle(\x27" ++ encodedListTitle cfg ++ "\x27)/items"

/-- `SharePointConnector._build_items_url_with_limit`: append `?$top={limit}`. -/
def buildItemsUrlWithLimit (cfg : SharePointConfig) (limit : Int) : String :=
  buildItemsUrl cfg ++ "?$top=" ++ toString limit

/-- `SharePointConnector._validate_limit`: `ValueError` when `limit <= 0`. -/
def validateLimit (limit : Int) : Except PyError Unit :=
  if limit ≤ 0 then .error (.valueError "Limit must be greater than zero") else .ok ()

/-- `SharePointConnector.get_items_with_limit`: validate the limit, build the
`$top` URL, fetch without pagination, convert to a DataFrame.  The second
component counts the HTTP requests issued (`0` when validation fails). -/
def getItemsWithLimit {V : Type} (cfg : SharePointConfig)
    (server : String → HttpResponse (Item V)) (fuel : Nat) (limit : Int) :
    Option (Except PyError (Frame V × Bool) × Nat) :=
  match validateLimit limit with
  | .error e => some (.error e, 0)
  | .ok _ =>
      match fetchItems server (buildItemsUrlWithLimit cfg limit) false fuel with
      | none => none
      | some (.error e, n) => some (.error e, n)
      | some (.ok items, n) => some (.ok (toDataframe items), n)

/-- `SharePointConnector.get_all_items`: fetch from the base items URL with
`paginate=True`, convert to a DataFrame. -/
def getAllItems {V : Type} (cfg : SharePointConfig)
    (server : String → HttpResponse (Item V)) (fuel : Nat) :
    Option (Except PyError (Frame V × Bool) × Nat) :=
  match fetchItems server (buildItemsUrl cfg) true fuel with
  | none => none
  | some (.error e, n) => some (.error e, n)
  | some (.ok items, n) => some (.ok (toDataframe items), n)

/-- Python's `str.isalnum`, restricted to the ASCII range (the list titles
and filenames at issue are ASCII; Unicode alphanumerics are out of scope). -/
def pyIsAlnum (c : Char) : Bool :=
  (('a' ≤ c && c ≤ 'z') || ('A' ≤ c && c ≤ 'Z') || ('0' ≤ c && c ≤ '9'))

/-- The character class kept by `save_to_csv`'s comprehension:
`c.isalnum() or c in (' ', '-', '_')`. -/
def keepChar (c : Char) : Bool :=
  pyIsAlnum c || c = ' ' || c = '-' || c = '_'

/-- ASCII whitespace as stripped by Python's `str.rstrip()`. -/
def pyIsSpace (c : Char) : Bool :=
  c = ' ' || c = '\t' || c = '\n' || c = '\x0b' || c = '\x0c' || c = '\r'

/-- `str.rstrip()`: drop trailing whitespace characters. -/
def rstrip (s : List Char) : List Char :=
  (s.reverse.dropWhile pyIsSpace).reverse

/-- The default filename computed by `save_to_csv` when `filename is None`:
filter to safe characters, `rstrip()`, replace spaces by underscores,
append `.csv`. -/
def defaultCsvFilename (listTitle : String) : String :=
  let safe1 := listTitle.toList.filter keepChar
  let safe2 := rstrip safe1
  let safe3 := safe2.map (fun c => if c = ' ' then '_' else c)
  String.mk safe3 ++ ".csv"

/-- The filename `save_to_csv` writes to: the explicit one when given,
otherwise the default derived from the list title. -/
def saveToCsvFilename (listTitle : String) (filename : Option String) : String :=
  filename.getD (defaultCsvFilename listTitle)

/-- A server chain for a successful paginated fetch: starting from url `u`,
each page in the list is served with a non-error status, each page but the
last has a truthy next link pointing at the next page ("truthy" in Python's
sense), and the last page's next link is falsy. -/
def chainFromB {α : Type} [DecidableEq α] (server : String → HttpResponse α) :
    String → List (PageData α) → Bool
  | _, [] => false
  | u, [p] =>
      !decide (u = "") && !isHttpErrorStatus (server u).status &&
        decide ((server u).body = p) && !strTruthy (getNextUrl p)
  | u, p :: q :: rest =>
      !decide (u = "") && !isHttpErrorStatus (server u).status &&
        decide ((server u).body = p) && strTruthy (getNextUrl p) &&
        chainFromB server ((getNextUrl p).getD "") (q :: rest)

/-- A server chain of successful pages from url `u` that ends at url `w`
(the url the next request would be issued against). -/
def chainToB {α : Type} [DecidableEq α] (server : String → HttpResponse α) :
    String → List (PageData α) → String → Bool
  | u, [], w => decide (u = w)
  | u, p :: rest, w =>
      !decide (u = "") && !isHttpErrorStatus (server u).status &&
        decide ((server u).body = p) && strTruthy (getNextUrl p) &&
        chainToB server ((getNextUrl p).getD "") rest w

/-- Modelled from the spec sentence for C4: the next URL is the value of the
first of the three continuation fields that is *present* in the object
(`__next`, then `odata.nextLink`, then `@odata.nextLink`), to be compared
with the source's `getNextUrl`. -/
def getNextUrlFirstPresent {α : Type} (d : PageData α) : Option String :=
  match d.nextLegacy with
  | some s => some s
  | none =>
      match d.nextNometa with
      | some s => some s
      | none => d.nextAtOdata

/-- Modelled from the amended spec for C4: the value of the first
continuation field that is present with a truthy (non-null, non-empty)
value, in the same fixed order; `none` when no field is truthy. -/
def getNextUrlFirstTruthy {α : Type} (d : PageData α) : Option String :=
  if strTruthy d.nextLegacy then d.nextLegacy
  else if strTruthy d.nextNometa then d.nextNometa
  else if strTruthy d.nextAtOdata then d.nextAtOdata
  else none

/-- Modelled from the spec sentence for C9: default filename = the display
name with every character that is not alphanumeric, a space, a hyphen or an
underscore removed, spaces converted to underscores, suffixed `.csv` (no
trailing-space stripping), to be compared with the source's
`defaultCsvFilename`. -/
def specCsvFilename (listTitle : String) : String :=
  String.mk ((listTitle.toList.filter keepChar).map
    (fun c => if c = ' ' then '_' else c)) ++ ".csv"

/-- Modelled from the amended spec for C9: as `specCsvFilename`, but with
trailing spaces removed after the filtering step and before the
space-to-underscore conversion. -/
def specCsvFilenameAmended (listTitle : String) : String :=
  String.mk (((listTitle.toList.filter keepChar).reverse.dropWhile
    (fun c => c = ' ')).reverse.map (fun c => if c = ' ' then '_' else c)) ++ ".csv"

/-- A three-page demo server matching the spec's pagination example:
page 1 at `u1` has records A, B and `odata.nextLink` to `u2`; page 2 at `u2`
has record C and `odata.nextLink` to `u3`; page 3 (any other url) has
record D and no continuation link. -/
def demoServer : String → HttpResponse String := fun u =>
  if u = "u1" then ⟨200, ⟨some ["A", "B"], none, some "u2", none⟩⟩
  else if u = "u2" then ⟨200, ⟨some ["C"], none, some "u3", none⟩⟩
  else ⟨200, ⟨some ["D"], none, none, none⟩⟩

/-- A demo server whose first page at `e1` succeeds and links to `e2`, where
every other url answers with HTTP status 500. -/
def errServer : String → HttpResponse Nat := fun u =>
  if u = "e1" then ⟨200, ⟨some [1, 2], some "e2", none, none⟩⟩
  else ⟨500, ⟨some [3], none, none, none⟩⟩

/-- A demo server that always answers with HTTP status 304 (a non-2xx status
that `raise_for_status` does not treat as an error). -/
def srv304 : String → HttpResponse Nat := fun _ =>
  ⟨304, ⟨some [7], none, none, none⟩⟩

/-- A demo configuration. -/
def cfgDemo : SharePointConfig :=
  ⟨"https://host", "user", "pw", "My List"⟩

/-- A demo server that always answers 200 with an empty `value` collection. -/
def okServer : String → HttpResponse (Item Nat) := fun _ =>
  ⟨200, ⟨some [], none, none, none⟩⟩

/-- A demo server whose page at any url other than `p2` links to `p2`;
`p2` is a final page. -/
def pagingServer : String → HttpResponse (Item Nat) := fun u =>
  if u = "p2" then ⟨200, ⟨some [[("B", 2)]], none, none, none⟩⟩
  else ⟨200, ⟨some [[("A", 1)]], some "p2", none, none⟩⟩

/-- A demo server whose pages have an absent `value` key and only falsy
continuation links (`__next` and `@odata.nextLink` present but empty). -/
def emptyPageServer : String → HttpResponse (Item Nat) := fun _ =>
  ⟨200, ⟨none, some "", none, some ""⟩⟩

theorem makeRequest_ok {α : Type} (server : String → HttpResponse α) (u : String)
    (p : PageData α) (hst : isHttpErrorStatus (server u).status = false)
    (hb : (server u).body = p) : makeRequest server u = .ok p := by
  simp [makeRequest, hst, hb]

theorem strTruthy_true_iff (o : Option String) :
    strTruthy o = true ↔ o = some (o.getD "") ∧ o.getD "" ≠ "" := by
  cases o with
  | none => simp [strTruthy]
  | some s => simp [strTruthy]

theorem fetchLoop_falsy {α : Type} (server : String → HttpResponse α)
    (paginate : Bool) (fuel : Nat) (url : Option String) (items : List α)
    (count : Nat) (h : strTruthy url = false) :
    fetchLoop server paginate fuel url items count = some (.ok items, count) := by
  cases url with
  | none => cases fuel <;> rfl
  | some s =>
      have hs : s = "" := by simpa [strTruthy] using h
      subst hs
      cases fuel <;> simp [fetchLoop]

theorem fetchLoop_step {α : Type} (server : String → HttpResponse α)
    (paginate : Bool) (fuel : Nat) (u : String) (items : List α) (count : Nat)
    (hu : u ≠ "") :
    fetchLoop server paginate (fuel + 1) (some u) items count =
      match makeRequest server u with
      | .error e => some (.error e, count + 1)
      | .ok d =>
          fetchLoop server paginate fuel
            (if paginate then getNextUrl d else none)
            (items ++ d.value.getD []) (count + 1) := by
  simp [fetchLoop, hu]

theorem fetchLoop_chainFromB {α : Type} [DecidableEq α]
    (server : String → HttpResponse α) (ps : List (PageData α)) :
    ∀ (u : String) (items : List α) (count fuel : Nat),
      chainFromB server u ps = true → ps.length ≤ fuel →
      fetchLoop server true fuel (some u) items count =
        some (.ok (items ++ (ps.map fun p => p.value.getD []).flatten),
          count + ps.length) := by
  induction ps with
  | nil => intro u items count fuel hchain _; simp [chainFromB] at hchain
  | cons p rest ih =>
      cases rest with
      | nil =>
          intro u items count fuel hchain hfuel
          simp only [chainFromB, Bool.and_eq_true, Bool.not_eq_true',
            decide_eq_true_eq, decide_eq_false_iff_not] at hchain
          obtain ⟨⟨⟨hu, hst⟩, hb⟩, hnext⟩ := hchain
          have hreq := makeRequest_ok server u p hst hb
          cases fuel with
          | zero => simp at hfuel
          | succ f =>
              rw [fetchLoop_step server true f u items count hu, hreq]
              simp only [if_true]
              rw [fetchLoop_falsy server true f (getNextUrl p) _ _ hnext]
              simp
      | cons q rest2 =>
          intro u items count fuel hchain hfuel
          simp only [chainFromB, Bool.and_eq_true, Bool.not_eq_true',
            decide_eq_true_eq, decide_eq_false_iff_not] at hchain
          obtain ⟨⟨⟨⟨hu, hst⟩, hb⟩, htruthy⟩, hrest⟩ := hchain
          have hreq := makeRequest_ok server u p hst hb
          obtain ⟨heq, _⟩ := (strTruthy_true_iff (getNextUrl p)).mp htruthy
          cases fuel with
          | zero => simp at hfuel
          | succ f =>
              rw [fetchLoop_step server true f u items count hu, hreq]
              simp only [if_true]
              rw [heq, ih ((getNextUrl p).getD "") (items ++ p.value.getD [])
                (count + 1) f hrest (by simpa using hfuel)]
              simp [List.append_assoc]
              omega

theorem fetchLoop_chainToB {α : Type} [DecidableEq α]
    (server : String → HttpResponse α) (ps : List (PageData α)) :
    ∀ (u w : String) (items : List α) (count fuel : Nat),
      chainToB server u ps w = true → w ≠ "" →
      isHttpErrorStatus (server w).status = true → ps.length + 1 ≤ fuel →
      fetchLoop server true fuel (some u) items count =
        some (.error (.httpError (server w).status), count + ps.length + 1) := by
  induction ps with
  | nil =>
      intro u w items count fuel hchain hw hs hfuel
      have huw : u = w := by simpa [chainToB] using hchain
      subst huw
      cases fuel with
      | zero => simp at hfuel
      | succ f =>
          rw [fetchLoop_step server true f u items count hw]
          have hreq : makeRequest server u = .error (.httpError (server u).status) := by
            simp [makeRequest, hs]
          rw [hreq]
          simp
  | cons p rest ih =>
      intro u w items count fuel hchain hw hs hfuel
      simp only [chainToB, Bool.and_eq_true, Bool.not_eq_true',
        decide_eq_true_eq, decide_eq_false_iff_not] at hchain
      obtain ⟨⟨⟨⟨hu, hst⟩, hb⟩, htruthy⟩, hrest⟩ := hchain
      have hreq := makeRequest_ok server u p hst hb
      obtain ⟨heq, _⟩ := (strTruthy_true_iff (getNextUrl p)).mp htruthy
      cases fuel with
      | zero => simp at hfuel
      | succ f =>
          rw [fetchLoop_step server true f u items count hu, hreq]
          simp only [if_true]
          rw [heq, ih ((getNextUrl p).getD "") w (items ++ p.value.getD [])
            (count + 1) f hrest hw hs (by simpa using hfuel)]
          simp
          omega

theorem fetchLoop_error_is_httpError {α : Type} (server : String → HttpResponse α)
    (paginate : Bool) :
    ∀ (fuel : Nat) (url : Option String) (items : List α) (count n : Nat)
      (e : PyError),
      fetchLoop server paginate fuel url items count = some (.error e, n) →
      ∃ s, e = .httpError s := by
  intro fuel
  induction fuel with
  | zero =>
      intro url items count n e h
      cases url with
      | none => simp [fetchLoop] at h
      | some u =>
          by_cases hu : u = "" <;> simp [fetchLoop, hu] at h
  | succ f ih =>
      intro url items count n e h
      cases url with
      | none => simp [fetchLoop] at h
      | some u =>
          by_cases hu : u = ""
          · simp [fetchLoop, hu] at h
          · rw [fetchLoop_step server paginate f u items count hu] at h
            cases hm : makeRequest server u with
            | error e2 =>
                rw [hm] at h
                simp only [Option.some.injEq, Prod.mk.injEq,
                  Except.error.injEq] at h
                obtain ⟨he, _⟩ := h
                subst he
                unfold makeRequest at hm
                by_cases hst : isHttpErrorStatus (server u).status = true
                · simp [hst] at hm
                  exact ⟨(server u).status, hm.symm⟩
                · simp [hst] at hm
            | ok d =>
                rw [hm] at h
                exact ih _ _ _ _ _ h

theorem quoteSafe_bounds (b : Nat) (h : quoteSafe b = true) : b < 128 ∧ b ≠ 37 := by
  simp only [quoteSafe, Bool.or_eq_true, Bool.and_eq_true, decide_eq_true_eq,
    beq_iff_eq] at h
  omega

theorem char_ofNat_small : ∀ b, b < 128 →
    (Char.ofNat b).toNat = b ∧ (Char.ofNat b = '%' ↔ b = 37) := by
  decide

theorem hexVal_hexDigit : ∀ n, n < 16 → hexVal (hexDigit n) = some n := by
  decide

theorem unquoteBytes_cons_not_pct (c : Char) (l : List Char) (hc : ¬c = '%') :
    unquoteBytes (c :: l) = c.toNat :: unquoteBytes l := by
  cases l with
  | nil => simp [unquoteBytes, hc]
  | cons a t =>
      cases t with
      | nil => simp [unquoteBytes, hc]
      | cons a2 t2 => simp [unquoteBytes, hc]

theorem unquote_quote_bytes (bs : List Nat) (h : ∀ b ∈ bs, b < 256) :
    unquoteBytes (quoteBytes bs) = bs := by
  induction bs with
  | nil => rfl
  | cons b rest ih =>
      have hb : b < 256 := h b (List.mem_cons_self _ _)
      have hrest : ∀ x ∈ rest, x < 256 := fun x hx => h x (List.mem_cons_of_mem _ hx)
      by_cases hs : quoteSafe b = true
      · obtain ⟨h128, h37⟩ := quoteSafe_bounds b hs
        obtain ⟨htn, hiff⟩ := char_ofNat_small b h128
        have hne : ¬(Char.ofNat b = '%') := fun hcontr => h37 (hiff.mp hcontr)
        have hq : quoteBytes (b :: rest) = Char.ofNat b :: quoteBytes rest := by
          simp [quoteBytes, hs]
        rw [hq, unquoteBytes_cons_not_pct _ _ hne, htn, ih hrest]
      · have hs2 : quoteSafe b = false := by simpa using hs
        have hq : quoteBytes (b :: rest) =
            '%' :: hexDigit (b / 16) :: hexDigit (b % 16) :: quoteBytes rest := by
          simp [quoteBytes, hs2]
        rw [hq]
        have h1 : hexVal (hexDigit (b / 16)) = some (b / 16) :=
          hexVal_hexDigit _ (by omega)
        have h2 : hexVal (hexDigit (b % 16)) = some (b % 16) :=
          hexVal_hexDigit _ (by omega)
        simp [unquoteBytes, h1, h2, ih hrest]
        omega

theorem strBytes_lt_256 (s : String) : ∀ b ∈ strBytes s, b < 256 := by
  intro b hb
  simp only [strBytes, List.mem_map] at hb
  obtain ⟨u, _, rfl⟩ := hb
  exact u.toNat_lt

/-- C1: for every finite chain of page responses in which each page supplies
a `value` collection and all but the last supply a (truthy) continuation
link, fetching with `paginate = true` returns the concatenation of the
pages' records in server return order and issues exactly one request per
page, with no deduplication and no sorting. -/
theorem fetch_paginate_concatenates_pages {α : Type} [DecidableEq α]
    (server : String → HttpResponse α) (u : String) (ps : List (PageData α))
    (vss : List (List α)) (fuel : Nat)
    (hchain : chainFromB server u ps = true)
    (hvals : ps.map (fun p => p.value) = vss.map some)
    (hfuel : ps.length ≤ fuel) :
    fetchItems server u true fuel = some (.ok vss.flatten, ps.length) := by
  have h := fetchLoop_chainFromB server ps u [] 0 fuel hchain hfuel
  have hmap : ps.map (fun p => p.value.getD []) = vss := by
    have h2 : ps.map (fun p => p.value.getD []) =
        (ps.map fun p => p.value).map (fun o => o.getD []) := by
      simp [List.map_map]
    rw [h2, hvals, List.map_map]
    have h3 : ((fun (o : Option (List α)) => o.getD []) ∘ some) = id := rfl
    rw [h3, List.map_id]
  rw [fetchItems, h, hmap]
  simp

/-- C1 witness: the spec's three-page example, records A B / C / D, three
requests, result `[A, B, C, D]`. -/
theorem fetch_paginate_concatenates_pages_witness :
    fetchItems demoServer "u1" true 3 = some (.ok ["A", "B", "C", "D"], 3) :=
  fetch_paginate_concatenates_pages demoServer "u1"
    [⟨some ["A", "B"], none, some "u2", none⟩,
     ⟨some ["C"], none, some "u3", none⟩,
     ⟨some ["D"], none, none, none⟩]
    [["A", "B"], ["C"], ["D"]] 3 (by decide) (by decide) (by decide)

/-- C2 counterexample: HTTP status 304 is not a 2xx status, yet
`raise_for_status` does not raise for it, so the fetch succeeds and returns
the page's records instead of failing with an HttpError. -/
theorem fetch_non2xx_counterexample :
    (304 < 200 ∨ 300 ≤ 304) ∧
      fetchItems srv304 "u" true 1 = some (.ok [7], 1) := by
  exact ⟨Or.inr (by omega), by rfl⟩

/-- C2 (amended): for every page at any position in the fetch whose HTTP
response has a client-or-server-error (4xx/5xx) status, the fetch fails
immediately with an HttpError carrying the status code, performs no retry
and issues no further requests (total requests = pages fetched so far plus
the failing one), and the records accumulated from earlier pages are
discarded: no partial result is returned. -/
theorem fetch_http_error_aborts {α : Type} [DecidableEq α]
    (server : String → HttpResponse α) (u w : String) (ps : List (PageData α))
    (fuel : Nat) (hchain : chainToB server u ps w = true) (hw : w ≠ "")
    (hs : isHttpErrorStatus (server w).status = true)
    (hfuel : ps.length + 1 ≤ fuel) :
    fetchItems server u true fuel =
      some (.error (.httpError (server w).status), ps.length + 1) := by
  have h := fetchLoop_chainToB server ps u w [] 0 fuel hchain hw hs hfuel
  rw [fetchItems, h]
  simp

/-- C2 witness: one successful page with records 1, 2 followed by a 500
response: the whole fetch fails with HttpError 500 after exactly two
requests and the accumulated records are discarded. -/
theorem fetch_http_error_aborts_witness :
    fetchItems errServer "e1" true 2 = some (.error (.httpError 500), 2) :=
  fetch_http_error_aborts errServer "e1" "e2"
    [⟨some [1, 2], some "e2", none, none⟩] 2
    (by decide) (by decide) (by decide) (by decide)

/-- C3: for every `limit <= 0`, `get_items_with_limit` fails with the
InvalidArgument error (`ValueError`) before any URL is requested (zero
network calls); for every `limit > 0` no `ValueError` is ever produced. -/
theorem limit_validation_guards_fetch {V : Type} (cfg : SharePointConfig)
    (server : String → HttpResponse (Item V)) (fuel : Nat) (limit : Int) :
    (limit ≤ 0 →
      getItemsWithLimit cfg server fuel limit =
        some (.error (.valueError "Limit must be greater than zero"), 0)) ∧
    (0 < limit → ∀ (m : String) (n : Nat),
      getItemsWithLimit cfg server fuel limit ≠
        some (.error (.valueError m), n)) := by
  constructor
  · intro hle
    simp [getItemsWithLimit, validateLimit, hle]
  · intro hpos m n
    have hv : validateLimit limit = .ok () := by
      simp only [validateLimit, ite_eq_right_iff]
      intro hle
      omega
    simp only [getItemsWithLimit, hv]
    cases hf : fetchItems server (buildItemsUrlWithLimit cfg limit) false fuel with
    | none => simp
    | some r =>
        obtain ⟨res, cnt⟩ := r
        cases res with
        | error e =>
            obtain ⟨s, hsz⟩ :=
              fetchLoop_error_is_httpError server false fuel
                (some (buildItemsUrlWithLimit cfg limit)) [] 0 cnt e hf
            subst hsz
            simp
        | ok items => simp

/-- C3 witness: `limit = 0` yields the ValueError with zero requests, and
`limit = 5` never yields a ValueError. -/
theorem limit_validation_guards_fetch_witness :
    getItemsWithLimit cfgDemo okServer 1 0 =
      some (.error (.valueError "Limit must be greater than zero"), 0) ∧
    getItemsWithLimit cfgDemo okServer 1 5 ≠
      some (.error (.valueError "Limit must be greater than zero"), 0) :=
  ⟨(limit_validation_guards_fetch cfgDemo okServer 1 0).1 (by decide),
   (limit_validation_guards_fetch cfgDemo okServer 1 5).2 (by decide)
     "Limit must be greater than zero" 0⟩

/-- C4 counterexample: on a page where `__next` is present but empty and
`odata.nextLink` is present and non-empty, the code selects
`odata.nextLink`, not the first *present* field as the claim states. -/
theorem next_url_first_present_counterexample :
    getNextUrl (α := Nat) ⟨none, some "", some "u2", none⟩ = some "u2" ∧
    getNextUrlFirstPresent (α := Nat) ⟨none, some "", some "u2", none⟩ = some "" ∧
    getNextUrl (α := Nat) ⟨none, some "", some "u2", none⟩ ≠
      getNextUrlFirstPresent (α := Nat) ⟨none, some "", some "u2", none⟩ := by
  decide

/-- C4 (amended): the next-page URL is computed by checking the three
continuation fields in the fixed order `__next`, `odata.nextLink`,
`@odata.nextLink` and using the first one that is present with a truthy
(non-null, non-empty) value; if none of the three is truthy, the computed
url is falsy, so pagination ends (the `while url` loop terminates). -/
theorem next_url_selection {α : Type} (d : PageData α) :
    (strTruthy (getNextUrl d) = true → getNextUrl d = getNextUrlFirstTruthy d) ∧
    (getNextUrlFirstTruthy d = none → strTruthy (getNextUrl d) = false) := by
  unfold getNextUrl getNextUrlFirstTruthy pyOrStr
  constructor
  · intro h
    by_cases h1 : strTruthy d.nextLegacy <;> by_cases h2 : strTruthy d.nextNometa <;>
      by_cases h3 : strTruthy d.nextAtOdata <;> simp_all [strTruthy]
  · intro h
    by_cases h1 : strTruthy d.nextLegacy <;> by_cases h2 : strTruthy d.nextNometa <;>
      by_cases h3 : strTruthy d.nextAtOdata <;> simp_all [strTruthy]

/-- C4 witness: on the counterexample page the selected url is the first
truthy candidate. -/
theorem next_url_selection_witness :
    getNextUrl (α := Nat) ⟨none, some "", some "u2", none⟩ =
      getNextUrlFirstTruthy (α := Nat) ⟨none, some "", some "u2", none⟩ :=
  (next_url_selection (⟨none, some "", some "u2", none⟩ : PageData Nat)).1 (by decide)

/-- C5 counterexample: a key with the `odata.` prefix is not removed by
`_clean_item`, contradicting the claim that internally-prefixed keys
(which per the claim include `odata.`/`@odata.` prefixes) are absent from
the cleaned record. -/
theorem clean_item_odata_counterexample :
    cleanItem [("odata.etag", (1 : Nat))] = [("odata.etag", 1)] ∧
    pyStartsWith "odata.etag" "odata." = true := by
  constructor
  · decide
  · decide

/-- C5 (amended): `clean(record)` contains no key with a leading underscore,
every key of the input without a leading underscore is preserved with its
value unchanged, and every pair of the cleaned record comes from the
original (so its key set is a subset of the original's); keys with
`odata.`/`@odata.` prefixes are not removed. -/
theorem clean_item_removes_underscore_keys {V : Type} (item : Item V) :
    (∀ kv ∈ cleanItem item, pyStartsWith kv.1 "_" = false) ∧
    (∀ kv ∈ item, pyStartsWith kv.1 "_" = false → kv ∈ cleanItem item) ∧
    (∀ kv ∈ cleanItem item, kv ∈ item) := by
  refine ⟨?_, ?_, ?_⟩
  · intro kv hkv
    simp only [cleanItem, List.mem_filter] at hkv
    simpa using hkv.2
  · intro kv hkv h
    simp only [cleanItem, List.mem_filter]
    exact ⟨hkv, by simp [h]⟩
  · intro kv hkv
    simp only [cleanItem, List.mem_filter] at hkv
    exact hkv.1

/-- C5 witness: cleaning `[("_meta", 0), ("Title", 3)]` keeps the pair
`("Title", 3)`. -/
theorem clean_item_removes_underscore_keys_witness :
    ("Title", (3 : Nat)) ∈ cleanItem [("_meta", 0), ("Title", 3)] :=
  (clean_item_removes_underscore_keys [("_meta", (0 : Nat)), ("Title", 3)]).2.1
    ("Title", 3) (by decide) (by decide)

theorem buildItemsUrlWithLimit_ne_empty (cfg : SharePointConfig) (limit : Int) :
    buildItemsUrlWithLimit cfg limit ≠ "" := by
  intro h
  have hlen := congrArg String.length h
  simp [buildItemsUrlWithLimit, String.length_append] at hlen
  exact absurd hlen.1.2 (by decide)

/-- C6: with `paginate = false` the fetch performs exactly one request and
returns only the first page's records, whatever continuation links that page
carries; `get_items_with_limit` never paginates (one request even when the
page has a next link), while `get_all_items` always paginates (it follows
any chain served from the base items URL). -/
theorem paginate_false_single_request {V : Type} [DecidableEq V] (cfg : SharePointConfig)
    (server : String → HttpResponse (Item V)) (u : String) (limit : Int)
    (ps : List (PageData (Item V))) (fuel g : Nat)
    (hu : u ≠ "")
    (hok : isHttpErrorStatus (server u).status = false)
    (hokL : isHttpErrorStatus (server (buildItemsUrlWithLimit cfg limit)).status = false)
    (hpos : 0 < limit)
    (hchain : chainFromB server (buildItemsUrl cfg) ps = true)
    (hg : ps.length ≤ g) :
    fetchItems server u false (fuel + 1) =
      some (.ok ((server u).body.value.getD []), 1) ∧
    getItemsWithLimit cfg server (fuel + 1) limit =
      some (.ok (toDataframe
        ((server (buildItemsUrlWithLimit cfg limit)).body.value.getD [])), 1) ∧
    getAllItems cfg server g =
      some (.ok (toDataframe ((ps.map fun p => p.value.getD []).flatten)),
        ps.length) := by
  have hone : ∀ (w : String), w ≠ "" →
      isHttpErrorStatus (server w).status = false →
      fetchItems server w false (fuel + 1) =
        some (.ok ((server w).body.value.getD []), 1) := by
    intro w hw hwok
    rw [fetchItems, fetchLoop_step server false fuel w [] 0 hw,
      makeRequest_ok server w (server w).body hwok rfl]
    simp [fetchLoop]
  refine ⟨hone u hu hok, ?_, ?_⟩
  · have hv : validateLimit limit = .ok () := by
      simp only [validateLimit, ite_eq_right_iff]
      intro hle
      omega
    simp only [getItemsWithLimit, hv,
      hone (buildItemsUrlWithLimit cfg limit) (buildItemsUrlWithLimit_ne_empty cfg limit) hokL]
  · have h := fetchLoop_chainFromB server ps (buildItemsUrl cfg) [] 0 g hchain hg
    simp only [getAllItems, fetchItems, h]
    simp

/-- C6 witness: a first page carrying a next link: one request with
`paginate=false` and for `get_items_with_limit`, two requests for
`get_all_items`. -/
theorem paginate_false_single_request_witness :
    fetchItems pagingServer "p1" false 3 = some (.ok [[("A", 1)]], 1) ∧
    getItemsWithLimit cfgDemo pagingServer 3 2 =
      some (.ok (toDataframe [[("A", 1)]]), 1) ∧
    getAllItems cfgDemo pagingServer 2 =
      some (.ok (toDataframe [[("A", 1)], [("B", 2)]]), 2) := by
  obtain ⟨h1, h2, h3⟩ :=
    paginate_false_single_request cfgDemo pagingServer "p1" 2
      [⟨some [[("A", 1)]], some "p2", none, none⟩,
       ⟨some [[("B", 2)]], none, none, none⟩] 2 2
      (by decide) (by decide) (by decide) (by decide) (by decide) (by decide)
  exact ⟨h1, h2, h3⟩

/-- C7: percent-decoding the encoded resource-name segment of the built
collection URL reproduces the resource name exactly (at the level of its
UTF-8 byte sequence, on which `urllib.parse.quote` operates), for every
resource name; and the built URL embeds exactly that encoded segment. -/
theorem encoded_title_roundtrip (cfg : SharePointConfig) :
    unquoteBytes (encodedListTitle cfg).toList = strBytes cfg.listTitle ∧
    buildItemsUrl cfg =
      baseApiUrl cfg ++ "/lists/GetByTitle(\x27" ++ encodedListTitle cfg ++
        "\x27)/items" := by
  constructor
  · exact unquote_quote_bytes (strBytes cfg.listTitle) (strBytes_lt_256 cfg.listTitle)
  · rfl

/-- C8: empty results are never errors: a page whose `value` collection is
empty or absent contributes zero records to the accumulator without failing
(the loop proceeds exactly as it would, accumulator unchanged), and
`_to_dataframe []` returns an explicit empty table (zero rows) without
raising while emitting the warning. -/
theorem empty_value_and_empty_table {V : Type} (server : String → HttpResponse (Item V))
    (paginate : Bool) (u : String) (fuel : Nat) (acc : List (Item V)) (n : Nat)
    (hu : u ≠ "") (hok : isHttpErrorStatus (server u).status = false)
    (hempty : (server u).body.value = none ∨ (server u).body.value = some []) :
    fetchLoop server paginate (fuel + 1) (some u) acc n =
      fetchLoop server paginate fuel
        (if paginate then getNextUrl (server u).body else none) acc (n + 1) ∧
    toDataframe ([] : List (Item V)) = (⟨[]⟩, true) := by
  constructor
  · rw [fetchLoop_step server paginate fuel u acc n hu,
      makeRequest_ok server u (server u).body hok rfl]
    have hval : (server u).body.value.getD [] = [] := by
      rcases hempty with h | h <;> simp [h]
    simp [hval]
  · rfl

/-- C8 witness: a page with an absent `value` key contributes zero records,
and the empty table comes out with the warning flag set. -/
theorem empty_value_and_empty_table_witness :
    (fetchLoop emptyPageServer true 1 (some "u") [] 0 =
      fetchLoop emptyPageServer true 0
        (if true then getNextUrl (emptyPageServer "u").body else none) [] 1) ∧
    toDataframe ([] : List (Item Nat)) = (⟨[]⟩, true) :=
  empty_value_and_empty_table emptyPageServer true "u" 0 [] 0 (by decide)
    (by decide) (Or.inl rfl)

/-- C9 counterexample: for the display name "My List " (trailing space) the
code produces "My_List.csv" (the `rstrip()` call removes the trailing space
before spaces become underscores), while the claim's rule yields
"My_List_.csv". -/
theorem default_filename_counterexample :
    defaultCsvFilename "My List " = "My_List.csv" ∧
    specCsvFilename "My List " = "My_List_.csv" ∧
    defaultCsvFilename "My List " ≠ specCsvFilename "My List " := by
  refine ⟨by decide, by decide, by decide⟩

theorem dropWhile_congr_mem {β : Type} (p q : β → Bool) :
    ∀ l : List β, (∀ c ∈ l, p c = q c) → l.dropWhile p = l.dropWhile q := by
  intro l
  induction l with
  | nil => intro _; rfl
  | cons a t ih =>
      intro h
      have ha := h a (List.mem_cons_self _ _)
      rw [List.dropWhile_cons, List.dropWhile_cons, ha]
      cases hq : q a with
      | true =>
          simp only [hq, if_true]
          exact ih fun c hc => h c (List.mem_cons_of_mem _ hc)
      | false => simp [hq]

theorem keepChar_space (c : Char) (h : keepChar c = true) :
    pyIsSpace c = decide (c = ' ') := by
  by_cases hc : c = ' '
  · subst hc; decide
  · by_cases h1 : c = '\t'
    · subst h1; exact absurd h (by decide)
    · by_cases h2 : c = '\n'
      · subst h2; exact absurd h (by decide)
      · by_cases h3 : c = '\x0b'
        · subst h3; exact absurd h (by decide)
        · by_cases h4 : c = '\x0c'
          · subst h4; exact absurd h (by decide)
          · by_cases h5 : c = '\r'
            · subst h5; exact absurd h (by decide)
            · simp [pyIsSpace, hc, h1, h2, h3, h4, h5]

/-- C9 (amended): the default CSV filename equals the display name with
every character that is not alphanumeric, a space, a hyphen or an underscore
removed, then trailing spaces removed, then the remaining spaces converted
to underscores, suffixed `.csv`; it is used exactly when no explicit
filename is given. -/
theorem default_filename_matches_spec (listTitle : String) :
    defaultCsvFilename listTitle = specCsvFilenameAmended listTitle ∧
    saveToCsvFilename listTitle none = defaultCsvFilename listTitle := by
  constructor
  · simp only [defaultCsvFilename, specCsvFilenameAmended, rstrip]
    have hcong : (listTitle.toList.filter keepChar).reverse.dropWhile pyIsSpace =
        (listTitle.toList.filter keepChar).reverse.dropWhile
          (fun c => decide (c = ' ')) := by
      apply dropWhile_congr_mem
      intro c hc
      have hk : keepChar c = true :=
        (List.mem_filter.mp (List.mem_reverse.mp hc)).2
      exact keepChar_space c hk
    rw [hcong]
  · rfl

/-- C10: the continuation-link lookup selects the first truthy candidate,
not merely the first present one: when each of the three fields is absent or
falsy, pagination ends after that page (one request, that page's records
only), and a present-but-falsy field is skipped in favor of a later truthy
field. -/
theorem next_link_requires_truthy {α : Type} (server : String → HttpResponse α)
    (u : String) (fuel : Nat) (d : PageData α)
    (hu : u ≠ "") (hok : isHttpErrorStatus (server u).status = false)
    (h1 : strTruthy (server u).body.nextLegacy = false)
    (h2 : strTruthy (server u).body.nextNometa = false)
    (h3 : strTruthy (server u).body.nextAtOdata = false)
    (hs1 : strTruthy d.nextLegacy = false) (hs2 : strTruthy d.nextNometa = true) :
    fetchItems server u true (fuel + 1) =
      some (.ok ((server u).body.value.getD []), 1) ∧
    getNextUrl d = d.nextNometa := by
  constructor
  · rw [fetchItems, fetchLoop_step server true fuel u [] 0 hu,
      makeRequest_ok server u (server u).body hok rfl]
    simp only [if_true]
    have hfalsy : strTruthy (getNextUrl (server u).body) = false := by
      simp [getNextUrl, pyOrStr, h1, h2, h3]
    rw [fetchLoop_falsy server true fuel _ _ _ hfalsy]
    simp
  · simp [getNextUrl, pyOrStr, hs1, hs2]

/-- C10 witness: a page with `__next` and `@odata.nextLink` present but empty
ends pagination after one request, and a page with falsy `__next` and truthy
`odata.nextLink` selects the latter. -/
theorem next_link_requires_truthy_witness :
    fetchItems emptyPageServer "u" true 1 = some (.ok [], 1) ∧
    getNextUrl (⟨none, some "", some "next", none⟩ : PageData (Item Nat)) =
      some "next" :=
  next_link_requires_truthy emptyPageServer "u" 0
    (⟨none, some "", some "next", none⟩ : PageData (Item Nat))
    (by decide) (by decide) (by decide) (by decide) (by decide) (by decide)
    (by decide)
